import Mathlib

/-
Verification of the procrastination-detector repository.

The development shallowly embeds the two behavioural cores of the program:

* the detection loop of src/app.py (function main, lines 111-200): a
  consecutive-detection counter driven by per-frame outcomes, firing the
  alert presenter when the counter reaches the configured threshold;

* the alert presenter of src/alert_system.py: image loading
  (load_horse_images), the fail-open scaffolding of trigger_alert, the
  carousel/transition state machine of its render loop, the page-turn
  renderer, and its event handling.

Machine integers of the source are embedded as Int (Python integers are
unbounded), the float quantities (transition progress, scales) as Rat,
and fallible collaborator calls as explicit outcome data.
-/

set_option linter.unusedVariables false

/-! ## Detection loop (src/app.py, main) -/

/-- Outcome of one trigger_alert invocation as observed by the main loop:
the presenter returned True (keep monitoring), returned False (the loop
breaks), or raised an exception (caught by the surrounding try/except). -/
inductive PresenterOutcome
  | cont
  | quitApp
  | raised
  deriving DecidableEq, Repr

/-- One iteration of the main while-loop, as classified by src/app.py:
a failed camera read (ret false, line 115), an exception raised inside the
per-frame try block at the model inference call (line 121, caught at line
198), or a successfully processed frame with its detection outcome.
For a processed frame, alertResult records what trigger_alert would do if
the threshold is reached on this frame (it is ignored otherwise). -/
inductive FrameOutcome
  | noRead
  | detectError
  | frame (detected : Bool) (alertResult : PresenterOutcome)
  deriving DecidableEq, Repr

/-- State of the detection loop: the counter phone_detected_frames, the
(1-based) positions of frames on which the alert fired so far, the number
of loop iterations performed, and whether the loop has been exited by the
break at line 149 (presenter returned False). -/
structure DetState where
  counter : Int
  alerts : List Nat
  framesSeen : Nat
  stopped : Bool
  deriving DecidableEq, Repr

/-- One iteration of the detection loop (src/app.py lines 113-200):
skip the frame on a failed read or an inference exception; otherwise
increment the counter on detection, reset it on no detection, and when
counter >= threshold fire the alert, then either break (presenter said
quit, before the reset at line 153 is reached) or reset the counter. -/
def detStep (t : Int) (s : DetState) (o : FrameOutcome) : DetState :=
  if s.stopped then s
  else
    match o with
    | .noRead => { s with framesSeen := s.framesSeen + 1 }
    | .detectError => { s with framesSeen := s.framesSeen + 1 }
    | .frame d pr =>
      let c : Int := if d then s.counter + 1 else 0
      if t ≤ c then
        if pr = .quitApp then
          { counter := c, alerts := s.alerts ++ [s.framesSeen + 1],
            framesSeen := s.framesSeen + 1, stopped := true }
        else
          { counter := 0, alerts := s.alerts ++ [s.framesSeen + 1],
            framesSeen := s.framesSeen + 1, stopped := false }
      else
        { s with counter := c, framesSeen := s.framesSeen + 1 }

/-- Initial loop state: phone_detected_frames = 0 (src/app.py line 111). -/
def detInit : DetState := ⟨0, [], 0, false⟩

/-- The detection loop run over a sequence of per-frame outcomes. -/
def detRun (t : Int) (os : List FrameOutcome) : DetState :=
  os.foldl (detStep t) detInit

/-- Length of the trailing run of detected frames, reading the reversed
outcome list: skipped frames (failed read, inference error) neither extend
nor break the run; a frame without a detection breaks it. -/
def trailingDetectedRev : List FrameOutcome → Nat
  | [] => 0
  | .noRead :: rest => trailingDetectedRev rest
  | .detectError :: rest => trailingDetectedRev rest
  | .frame false _ :: rest => 0
  | .frame true _ :: rest => trailingDetectedRev rest + 1

/-- Length of the current trailing run of consecutive detected frames. -/
def trailingDetected (os : List FrameOutcome) : Nat :=
  trailingDetectedRev os.reverse

lemma detRun_append (t : Int) (os : List FrameOutcome) (o : FrameOutcome) :
    detRun t (os ++ [o]) = detStep t (detRun t os) o := by
  simp [detRun, List.foldl_append]

lemma detStep_stopped (t : Int) (s : DetState) (o : FrameOutcome)
    (h : s.stopped = true) : detStep t s o = s := by
  simp [detStep, h]

lemma trailingDetected_append (os : List FrameOutcome) (o : FrameOutcome) :
    trailingDetected (os ++ [o]) =
      match o with
      | .noRead => trailingDetected os
      | .detectError => trailingDetected os
      | .frame false _ => 0
      | .frame true _ => trailingDetected os + 1 := by
  cases o with
  | noRead => simp [trailingDetected, List.reverse_append, trailingDetectedRev]
  | detectError => simp [trailingDetected, List.reverse_append, trailingDetectedRev]
  | frame d pr =>
    cases d <;> simp [trailingDetected, List.reverse_append, trailingDetectedRev]

lemma emod_succ_of_eq_pred {tr t : Int} (h1 : tr % t = t - 1) :
    (tr + 1) % t = 0 := by
  have hd := Int.ediv_add_emod tr t
  have h2 : tr + 1 = t * (tr / t + 1) := by rw [h1] at hd; linarith
  rw [h2, Int.mul_emod_right]

lemma emod_succ_of_lt {tr t r : Int} (h1 : tr % t = r) (h2 : r + 1 < t)
    (h0 : 0 ≤ r) : (tr + 1) % t = r + 1 := by
  have hd := Int.ediv_add_emod tr t
  have h3 : tr + 1 = (r + 1) + t * (tr / t) := by rw [h1] at hd; linarith
  rw [h3, Int.add_mul_emod_self_left, Int.emod_eq_of_lt (by linarith) h2]

/-- Main invariant of the detection loop: while the loop is alive, the
counter equals the trailing detected-run length modulo the threshold, and
stays below the threshold. -/
lemma detRun_inv (t : Int) (ht : 1 ≤ t) (os : List FrameOutcome)
    (h : (detRun t os).stopped = false) :
    (detRun t os).counter = (trailingDetected os : Int) % t ∧
      (detRun t os).counter < t := by
  induction os using List.reverseRecOn with
  | nil =>
    constructor
    · simp [detRun, detInit, trailingDetected, trailingDetectedRev]
    · simpa [detRun, detInit] using ht
  | append_singleton os o ih =>
    rw [detRun_append] at h ⊢
    by_cases hs : (detRun t os).stopped = true
    · rw [detStep_stopped t _ o hs] at h
      exact absurd h (by simp [hs])
    · have hs' : (detRun t os).stopped = false := by
        cases hx : (detRun t os).stopped
        · rfl
        · exact absurd hx hs
      obtain ⟨ih1, ih2⟩ := ih hs'
      have hnn : 0 ≤ (detRun t os).counter := by
        rw [ih1]; exact Int.emod_nonneg _ (by omega)
      rw [trailingDetected_append]
      cases o with
      | noRead => simpa [detStep, hs'] using ⟨ih1, ih2⟩
      | detectError => simpa [detStep, hs'] using ⟨ih1, ih2⟩
      | frame d pr =>
        cases d with
        | false =>
          have hc : ¬ t ≤ (0 : Int) := by omega
          constructor
          · simp [detStep, hs', hc, Int.zero_emod]
          · simpa [detStep, hs', hc] using ht
        | true =>
          by_cases hth : t ≤ (detRun t os).counter + 1
          · have hceq : (detRun t os).counter = t - 1 := by omega
            have hmod : ((trailingDetected os : Int) + 1) % t = 0 := by
              apply emod_succ_of_eq_pred
              rw [← ih1, hceq]
            cases pr with
            | quitApp =>
              rw [detStep] at h
              simp [hs', hth] at h
            | cont =>
              constructor
              · simp only [detStep, hs']
                simp only [Bool.false_eq_true, if_false, if_true, hth, if_pos]
                simp [hmod]
              · simp [detStep, hs', hth]; omega
            | raised =>
              constructor
              · simp only [detStep, hs']
                simp only [Bool.false_eq_true, if_false, if_true, hth, if_pos]
                simp [hmod]
              · simp [detStep, hs', hth]; omega
          · have hmod : ((trailingDetected os : Int) + 1) % t =
                (detRun t os).counter + 1 := by
              apply emod_succ_of_lt ih1.symm (by omega) hnn
            constructor
            · simp only [detStep, hs']
              simp [hth]
              omega
            · simp [detStep, hs', hth]; omega

lemma detStep_counter_nonneg (t : Int) (s : DetState) (o : FrameOutcome)
    (h : 0 ≤ s.counter) : 0 ≤ (detStep t s o).counter := by
  cases hx : s.stopped
  · cases o with
    | noRead => simpa [detStep, hx] using h
    | detectError => simpa [detStep, hx] using h
    | frame d pr =>
      simp only [detStep, hx, Bool.false_eq_true, if_false]
      cases d <;> cases pr <;> split_ifs <;> simp <;> omega
  · simpa [detStep_stopped t s o hx] using h

lemma foldl_detStep_nonneg (t : Int) (os : List FrameOutcome) :
    ∀ s : DetState, 0 ≤ s.counter → 0 ≤ (os.foldl (detStep t) s).counter := by
  induction os with
  | nil => intro s h; simpa using h
  | cons o os ih =>
    intro s h
    exact ih _ (detStep_counter_nonneg t s o h)

lemma detRun_counter_nonneg (t : Int) (os : List FrameOutcome) :
    0 ≤ (detRun t os).counter :=
  foldl_detStep_nonneg t os detInit (by simp [detInit])

/-! ## Alert presenter: carousel state machine (src/alert_system.py, trigger_alert render loop, lines 193-258) -/

/-- Carousel state of the render loop: current image index idx, the
precomputed next index next_idx, the transitioning flag, and the two
millisecond timestamps transition_start and last_switch. -/
structure CarouselState where
  idx : Nat
  nextIdx : Nat
  transitioning : Bool
  transitionStart : Int
  lastSwitch : Int
  deriving DecidableEq, Repr

/-- Transition progress as computed at line 221:
progress = min(1.0, (now - transition_start) / transition_duration). -/
def transProgress (transitionDuration : Int) (transitionStart now : Int) : ℚ :=
  min 1 (((now - transitionStart : Int) : ℚ) / ((transitionDuration : Int) : ℚ))

/-- One iteration of the render loop's carousel logic (lines 210-258),
given the current tick value now and the image count n: start a
transition when idle and the switch interval has elapsed (lines 213-216);
while transitioning, commit when progress reaches 1 (lines 223-227),
otherwise leave the carousel state unchanged (the page-turn drawing at
lines 229-256 does not mutate it). -/
def carouselStep (switchInterval transitionDuration : Int) (n : Nat)
    (s : CarouselState) (now : Int) : CarouselState :=
  let s1 :=
    if s.transitioning = false ∧ switchInterval ≤ now - s.lastSwitch then
      { s with transitioning := true, transitionStart := now,
               nextIdx := (s.idx + 1) % n }
    else s
  if s1.transitioning = true then
    if 1 ≤ transProgress transitionDuration s1.transitionStart now then
      { s1 with transitioning := false, idx := s1.nextIdx, lastSwitch := now }
    else s1
  else s1

/-- The carousel over a sequence of tick values, from the initial state of
lines 194-203: idx = 0, next_idx = idx, not transitioning,
transition_start = 0, last_switch = the setup-time tick value. -/
def carouselRun (switchInterval transitionDuration : Int) (n : Nat)
    (setupTicks : Int) (nows : List Int) : CarouselState :=
  nows.foldl (carouselStep switchInterval transitionDuration n)
    ⟨0, 0, false, 0, setupTicks⟩

/-! ## Alert presenter: page-turn renderer (src/alert_system.py lines 229-256) -/

/-- Python int(): truncation toward zero. -/
def ratTrunc (q : ℚ) : Int :=
  if 0 ≤ q then ⌊q⌋ else -⌊-q⌋

/-- The page-turn renderer for one frame while progress < 1 (lines
229-256): returns the optional draw command (width, left x) for the
outgoing image and for the incoming image. The outgoing image is scaled
to width int(img_width * abs(90 - angle) / 90) and blitted at x = 0; the
incoming one to width int(img_width * abs(angle) / 90) and blitted at
x = img_width - new_w; either is skipped when its scale is not above
0.01 or its integer width is 0. -/
def pageTurn (imgWidth : Nat) (progress : ℚ) :
    Option (Nat × Nat) × Option (Nat × Nat) :=
  let angle := progress * 90
  let oldScale := |90 - angle| / 90
  let newScale := |angle| / 90
  let oldDraw :=
    if 1/100 < oldScale then
      let oldW := (ratTrunc ((imgWidth : ℚ) * oldScale)).toNat
      if 0 < oldW then some (oldW, 0) else none
    else none
  let newDraw :=
    if 1/100 < newScale then
      let newW := (ratTrunc ((imgWidth : ℚ) * newScale)).toNat
      if 0 < newW then some (newW, imgWidth - newW) else none
    else none
  (oldDraw, newDraw)

/-- Right edge (x + width) of an optional draw command. -/
def drawRightEdge : Option (Nat × Nat) → Option Nat
  | some (w, x) => some (x + w)
  | none => none

/-- Left edge (x) of an optional draw command. -/
def drawLeftEdge : Option (Nat × Nat) → Option Nat
  | some (_, x) => some x
  | none => none

/-! ## Alert presenter: event handling (src/alert_system.py lines 283-297) -/

/-- pygame key code for K_q. -/
def K_q : Nat := 113

/-- pygame key code for K_ESCAPE. -/
def K_ESCAPE : Nat := 27

/-- A pygame rectangle, as used for the two buttons. -/
structure PyRect where
  left : Int
  top : Int
  w : Int
  h : Int
  deriving DecidableEq, Repr

/-- pygame Rect.collidepoint: a point is inside the rectangle, where the
right and bottom edges are exclusive. -/
def PyRect.collidepoint (r : PyRect) (x y : Int) : Bool :=
  decide (r.left ≤ x) && decide (x < r.left + r.w) &&
    decide (r.top ≤ y) && decide (y < r.top + r.h)

/-- The pygame events distinguished by the alert loop: QUIT (window
close), KEYDOWN with a key code, MOUSEBUTTONDOWN with a position, and
every other event type. -/
inductive PyEvent
  | quitEvent
  | keydown (key : Nat)
  | mousedown (x y : Int)
  | otherEvent
  deriving DecidableEq, Repr

/-- Event handling of the alert loop (lines 283-297), transforming the
pair (running, should_continue): QUIT stops with should_continue = False;
KEYDOWN of K_q or K_ESCAPE stops with should_continue = True; a mouse
click inside the continue button stops with True, inside the quit button
stops with False; anything else is ignored. -/
def handle_event (btnContinue btnQuit : PyRect) (st : Bool × Bool)
    (e : PyEvent) : Bool × Bool :=
  match e with
  | .quitEvent => (false, false)
  | .keydown k => if k = K_q ∨ k = K_ESCAPE then (false, true) else st
  | .mousedown x y =>
    if btnContinue.collidepoint x y then (false, true)
    else if btnQuit.collidepoint x y then (false, false)
    else st
  | .otherEvent => st

/-! ## Alert presenter: fail-open scaffolding (src/alert_system.py lines 100-181) -/

/-- Environment of one trigger_alert invocation: whether pygame.init
succeeds, the image list returned by load_horse_images, whether
pygame.display.set_mode succeeds, whether button font rendering succeeds,
and the should_continue value the event loop would produce if reached. -/
structure AlertEnv where
  pygameInitOk : Bool
  images : List Nat
  displayOk : Bool
  fontOk : Bool
  loopResult : Bool
  deriving DecidableEq, Repr

/-- Observable outcome of trigger_alert: the returned boolean and whether
a display window was opened. -/
structure AlertOutcome where
  result : Bool
  displayOpened : Bool
  deriving DecidableEq, Repr

/-- Control skeleton of trigger_alert (lines 100-181 and 299-305):
return True if pygame.init raises (lines 100-104); return True without
creating a display if the image list is empty (lines 112-115); return
True if display creation raises (lines 156-162); return True if button
font rendering raises (lines 172-181, the display exists by then);
otherwise the event loop runs and its should_continue value is
returned. -/
def trigger_alert (env : AlertEnv) : AlertOutcome :=
  if env.pygameInitOk = false then ⟨true, false⟩
  else if env.images = [] then ⟨true, false⟩
  else if env.displayOk = false then ⟨true, false⟩
  else if env.fontOk = false then ⟨true, true⟩
  else ⟨env.loopResult, true⟩

/-! ## Claims about the detection loop -/

/-- Claim C1: for every sequence of per-frame outcomes processed by the
detection loop, the Detection Counter equals the length of the current
trailing run of consecutive detected frames with its resets, i.e. the
trailing run length modulo the threshold (every time a run reaches the
threshold the alert fires and the counter restarts at 0); it is reset to
0 on any frame without a detection; it is reset to 0 immediately after
the Alert Presenter is invoked whenever the loop keeps running (presenter
returned True or raised); and when the presenter returns False the loop
stops, so no later frame observes the counter. -/
theorem c1_counter_trailing_run (t : Int) (ht : 1 ≤ t)
    (os : List FrameOutcome) (h : (detRun t os).stopped = false) :
    (detRun t os).counter = (trailingDetected os : Int) % t ∧
    (∀ pr, (detRun t (os ++ [.frame false pr])).counter = 0) ∧
    (∀ d pr, t ≤ (if d then (detRun t os).counter + 1 else 0) →
      ¬ pr = PresenterOutcome.quitApp →
      (detRun t (os ++ [.frame d pr])).counter = 0) ∧
    (∀ d, t ≤ (if d then (detRun t os).counter + 1 else 0) →
      (detRun t (os ++ [.frame d .quitApp])).stopped = true) := by
  refine ⟨(detRun_inv t ht os h).1, ?_, ?_, ?_⟩
  · intro pr
    rw [detRun_append]
    have hc : ¬ t ≤ (0 : Int) := by omega
    simp [detStep, h, hc]
  · intro d pr hth hpr
    rw [detRun_append]
    cases d <;> cases pr <;> simp_all [detStep, h]
  · intro d hth
    rw [detRun_append]
    cases d <;> simp_all [detStep, h]

/-- Witness for C1 at threshold 3 and the outcome sequence yes, yes. -/
theorem c1_counter_trailing_run_witness :
    (detRun 3 [.frame true .cont, .frame true .cont]).counter =
      ((trailingDetected [.frame true .cont, .frame true .cont] : Int) % 3) ∧
    (detRun 3 ([.frame true .cont, .frame true .cont] ++
      [.frame false .cont])).counter = 0 :=
  ⟨(c1_counter_trailing_run 3 (by decide)
      [.frame true .cont, .frame true .cont] (by decide)).1,
   (c1_counter_trailing_run 3 (by decide)
      [.frame true .cont, .frame true .cont] (by decide)).2.1 .cont⟩

/-- Claim C2: the Alert Presenter is invoked exactly when the Detection
Counter reaches the configured threshold and never before: on a processed
frame the alert list grows precisely when the updated counter reaches the
threshold (and then by the current frame position), skipped frames never
fire an alert, and for threshold 3 on the detection sequence yes, yes,
no, yes, yes, yes the alert fires exactly once, right after the 6th
frame. -/
theorem c2_alert_iff_threshold (t : Int) (os : List FrameOutcome)
    (d : Bool) (pr : PresenterOutcome)
    (h : (detRun t os).stopped = false) :
    (detRun t (os ++ [.frame d pr])).alerts =
      (detRun t os).alerts ++
        (if t ≤ (if d then (detRun t os).counter + 1 else 0)
          then [(detRun t os).framesSeen + 1] else []) ∧
    (detRun t (os ++ [.noRead])).alerts = (detRun t os).alerts ∧
    (detRun t (os ++ [.detectError])).alerts = (detRun t os).alerts ∧
    (detRun 3 [.frame true .cont, .frame true .cont, .frame false .cont,
      .frame true .cont, .frame true .cont, .frame true .cont]).alerts
      = [6] := by
  refine ⟨?_, ?_, ?_, by decide⟩
  · rw [detRun_append]
    by_cases hth : t ≤ (if d then (detRun t os).counter + 1 else 0)
    · cases d <;> cases pr <;> simp_all [detStep, h]
    · cases d with
      | false =>
        have hc : ¬ t ≤ (0 : Int) := by simpa using hth
        simp [detStep, h, hc]
      | true =>
        have hc : ¬ t ≤ (detRun t os).counter + 1 := by simpa using hth
        simp [detStep, h, hc]
  · rw [detRun_append]; simp [detStep, h]
  · rw [detRun_append]; simp [detStep, h]

/-- Witness for C2: the threshold-3 scenario of the claim. -/
theorem c2_alert_iff_threshold_witness :
    (detRun 3 [.frame true .cont, .frame true .cont, .frame false .cont,
      .frame true .cont, .frame true .cont, .frame true .cont]).alerts
      = [6] :=
  (c2_alert_iff_threshold 3 [] true .cont (by decide)).2.2.2

/-- Claim C8: a failed camera read and a detection-collaborator exception
are non-fatal transient errors: the frame is skipped, the loop continues
(it is not stopped), and counter and alert history are left unchanged. -/
theorem c8_transient_skipped (t : Int) (os : List FrameOutcome)
    (h : (detRun t os).stopped = false) :
    (detRun t (os ++ [.noRead])).counter = (detRun t os).counter ∧
    (detRun t (os ++ [.noRead])).alerts = (detRun t os).alerts ∧
    (detRun t (os ++ [.noRead])).stopped = false ∧
    (detRun t (os ++ [.detectError])).counter = (detRun t os).counter ∧
    (detRun t (os ++ [.detectError])).alerts = (detRun t os).alerts ∧
    (detRun t (os ++ [.detectError])).stopped = false := by
  refine ⟨?_, ?_, ?_, ?_, ?_, ?_⟩ <;> rw [detRun_append] <;>
    simp [detStep, h]

/-- Witness for C8 at threshold 5 after one detected frame. -/
theorem c8_transient_skipped_witness :
    (detRun 5 ([.frame true .cont] ++ [.noRead])).counter =
      (detRun 5 [.frame true .cont]).counter :=
  (c8_transient_skipped 5 [.frame true .cont] (by decide)).1

/-- Claim C9: with a zero or negative configured threshold, the counter
(which is never negative) satisfies counter >= threshold after every
per-frame update, so the alert fires on every successfully processed
frame regardless of whether anything was detected. -/
theorem c9_nonpositive_threshold (t : Int) (ht : t ≤ 0)
    (os : List FrameOutcome) (d : Bool) (pr : PresenterOutcome)
    (h : (detRun t os).stopped = false) :
    0 ≤ (detRun t os).counter ∧
    t ≤ (if d then (detRun t os).counter + 1 else 0) ∧
    (detRun t (os ++ [.frame d pr])).alerts =
      (detRun t os).alerts ++ [(detRun t os).framesSeen + 1] := by
  have hnn := detRun_counter_nonneg t os
  refine ⟨hnn, ?_, ?_⟩
  · cases d <;> simp <;> omega
  · have hth : t ≤ (if d then (detRun t os).counter + 1 else 0) := by
      cases d <;> simp <;> omega
    rw [detRun_append]
    cases d <;> cases pr <;> simp_all [detStep, h]

/-- Witness for C9 at threshold 0 on a first frame with no detection. -/
theorem c9_nonpositive_threshold_witness :
    (detRun 0 ([] ++ [.frame false .cont])).alerts = [1] := by
  have hw := c9_nonpositive_threshold 0 (by decide) [] false .cont (by decide)
  simpa [detRun, detInit] using hw.2.2

/-! ## Claims about the carousel state machine -/

/-- Claim C5: within one transition the computed progress value is
monotonically non-decreasing and clamped to [0, 1]; while progress is
below 1 the carousel state (in particular the next index and the
transition start recorded when the transition began) is unchanged; when
progress reaches 1 the committed current index equals the precomputed
next index, the transition ends, and the commit time is recorded in
last_switch; and a new transition begins only after switch_interval has
elapsed since the last commit. -/
theorem c5_transition_invariants (si td : Int) (htd : 0 < td)
    (start now1 now2 : Int) (h1 : start ≤ now1) (h12 : now1 ≤ now2)
    (n : Nat) (s : CarouselState) (now : Int) :
    transProgress td start now1 ≤ transProgress td start now2 ∧
    0 ≤ transProgress td start now1 ∧
    transProgress td start now1 ≤ 1 ∧
    (s.transitioning = true →
      transProgress td s.transitionStart now < 1 →
      carouselStep si td n s now = s) ∧
    (s.transitioning = true →
      1 ≤ transProgress td s.transitionStart now →
      (carouselStep si td n s now).idx = s.nextIdx ∧
      (carouselStep si td n s now).transitioning = false ∧
      (carouselStep si td n s now).lastSwitch = now) ∧
    (s.transitioning = false →
      (carouselStep si td n s now).transitioning = true →
      si ≤ now - s.lastSwitch) := by
  have htdq : (0 : ℚ) < ((td : Int) : ℚ) := by exact_mod_cast htd
  refine ⟨?_, ?_, ?_, ?_, ?_, ?_⟩
  · apply min_le_min le_rfl
    apply (div_le_div_iff_of_pos_right htdq).mpr
    exact_mod_cast (by omega : now1 - start ≤ now2 - start)
  · apply le_min (by norm_num)
    apply div_nonneg _ (le_of_lt htdq)
    exact_mod_cast (by omega : (0 : Int) ≤ now1 - start)
  · exact min_le_left _ _
  · intro htr hp
    simp [carouselStep, htr, not_le.mpr hp]
  · intro htr hp
    simp [carouselStep, htr, hp]
  · intro hf hres
    by_cases hsi : si ≤ now - s.lastSwitch
    · exact hsi
    · simp [carouselStep, hf, hsi] at hres

/-- Witness for C5 with the default 800 ms transition and 2000 ms switch
interval: progress is monotone between ticks 100 and 200, and a
transition started at tick 0 commits the precomputed next index 1 at
tick 800. -/
theorem c5_transition_invariants_witness :
    transProgress 800 0 100 ≤ transProgress 800 0 200 ∧
    (carouselStep 2000 800 5 ⟨0, 1, true, 0, 0⟩ 800).idx = 1 := by
  have hw := c5_transition_invariants 2000 800 (by norm_num) 0 100 200
    (by norm_num) (by norm_num) 5 ⟨0, 1, true, 0, 0⟩ 800
  exact ⟨hw.1, (hw.2.2.2.2.1 rfl (by norm_num [transProgress])).1⟩

lemma carouselStep_bounds (si td : Int) (n : Nat) (hn : 0 < n)
    (s : CarouselState) (now : Int)
    (h : s.idx < n ∧ s.nextIdx < n) :
    (carouselStep si td n s now).idx < n ∧
      (carouselStep si td n s now).nextIdx < n := by
  obtain ⟨hi, hx⟩ := h
  have hm : (s.idx + 1) % n < n := Nat.mod_lt _ hn
  simp only [carouselStep]
  split_ifs <;> simp_all

/-- Claim C10: throughout one presenter session with a non-empty image
set, the current index and the next index stay in [0, image_count): the
next index is computed modulo the image count and the current index is
only ever overwritten by a previously computed next index, so every
image-list access of the render loop is in bounds. -/
theorem c10_indices_in_bounds (si td : Int) (n : Nat) (hn : 1 ≤ n)
    (setup : Int) (nows : List Int) :
    (carouselRun si td n setup nows).idx < n ∧
      (carouselRun si td n setup nows).nextIdx < n := by
  have hgen : ∀ (l : List Int) (s : CarouselState),
      s.idx < n ∧ s.nextIdx < n →
      (l.foldl (carouselStep si td n) s).idx < n ∧
        (l.foldl (carouselStep si td n) s).nextIdx < n := by
    intro l
    induction l with
    | nil => intro s h; simpa using h
    | cons x xs ih =>
      intro s h
      exact ih _ (carouselStep_bounds si td n (by omega) s x h)
  exact hgen nows _ ⟨by simpa using hn, by simpa using hn⟩

/-- Witness for C10 with two images over three render ticks that start
and complete one transition. -/
theorem c10_indices_in_bounds_witness :
    (carouselRun 2000 800 2 0 [0, 2500, 3000]).idx < 2 ∧
      (carouselRun 2000 800 2 0 [0, 2500, 3000]).nextIdx < 2 :=
  c10_indices_in_bounds 2000 800 2 (by norm_num) 0 [0, 2500, 3000]

/-! ## Claims about the page-turn renderer -/

/-- Claim C6 counterexample: at frame width 501 and progress 1/2 (400 ms
into the default 800 ms transition) both images are drawn, the outgoing
image covering x in [0, 250) flush-left and the incoming image starting
at x = 251 flush-right; the right edge of the outgoing image does not
meet the left edge of the incoming image, so the two do not abut:
integer truncation leaves a one-pixel gap at x = 250. -/
theorem c6_counterexample :
    pageTurn 501 (1/2) = (some (250, 0), some (250, 251)) ∧
    drawRightEdge (pageTurn 501 (1/2)).1 ≠
      drawLeftEdge (pageTurn 501 (1/2)).2 := by
  have h : pageTurn 501 (1/2) = (some (250, 0), some (250, 251)) := by
    norm_num [pageTurn, ratTrunc, abs_of_nonneg]
    omega
  refine ⟨h, ?_⟩
  rw [h]
  simp [drawRightEdge, drawLeftEdge]

/-- Claim C6 (amended): while progress < 1 the renderer treats
progress * 90 as an angle; when the outgoing image is drawn, its width is
the integer truncation of frame_width * (90 - angle) / 90 and it sits
flush-left at x = 0; when the incoming image is drawn, its width is the
truncation of frame_width * angle / 90 and it sits flush-right at
x = frame_width - width; when both are drawn they never overlap and are
separated by at most one pixel, abutting exactly when
frame_width * progress is an integer; and an image whose scale is at or
below 1/100 of the target width is skipped. -/
theorem c6_page_turn_amended (W : Nat) (p : ℚ) (hp0 : 0 ≤ p) (hp1 : p < 1) :
    (∀ w x, (pageTurn W p).1 = some (w, x) →
      (w : Int) = ⌊(W : ℚ) * ((90 - p * 90) / 90)⌋ ∧ x = 0) ∧
    (∀ w x, (pageTurn W p).2 = some (w, x) →
      (w : Int) = ⌊(W : ℚ) * (p * 90 / 90)⌋ ∧ x = W - w ∧ w ≤ W) ∧
    (∀ ow ox nw nx, (pageTurn W p).1 = some (ow, ox) →
      (pageTurn W p).2 = some (nw, nx) →
      ox + ow ≤ nx ∧ nx ≤ ox + ow + 1 ∧
      ((W : ℚ) * p = (⌊(W : ℚ) * p⌋ : ℚ) → ox + ow = nx)) ∧
    ((90 - p * 90) / 90 ≤ 1/100 → (pageTurn W p).1 = none) ∧
    (p * 90 / 90 ≤ 1/100 → (pageTurn W p).2 = none) := by
  have h90 : (0 : ℚ) ≤ 90 - p * 90 := by linarith
  have habs1 : |(90 : ℚ) - p * 90| = 90 - p * 90 := abs_of_nonneg h90
  have habs2 : |p * (90 : ℚ)| = p * 90 :=
    abs_of_nonneg (mul_nonneg hp0 (by norm_num))
  have ha0 : (0 : ℚ) ≤ (W : ℚ) * ((90 - p * 90) / 90) :=
    mul_nonneg (Nat.cast_nonneg W) (div_nonneg h90 (by norm_num))
  have hb0 : (0 : ℚ) ≤ (W : ℚ) * (p * 90 / 90) :=
    mul_nonneg (Nat.cast_nonneg W)
      (div_nonneg (mul_nonneg hp0 (by norm_num)) (by norm_num))
  have hta : ratTrunc ((W : ℚ) * ((90 - p * 90) / 90)) =
      ⌊(W : ℚ) * ((90 - p * 90) / 90)⌋ := if_pos ha0
  have htb : ratTrunc ((W : ℚ) * (p * 90 / 90)) =
      ⌊(W : ℚ) * (p * 90 / 90)⌋ := if_pos hb0
  have hfa0 : (0 : Int) ≤ ⌊(W : ℚ) * ((90 - p * 90) / 90)⌋ :=
    Int.floor_nonneg.mpr ha0
  have hfb0 : (0 : Int) ≤ ⌊(W : ℚ) * (p * 90 / 90)⌋ :=
    Int.floor_nonneg.mpr hb0
  have hdef1a : (pageTurn W p).1 =
      (if 1/100 < |(90 : ℚ) - p * 90| / 90 then
        (if 0 < (ratTrunc ((W : ℚ) * (|(90 : ℚ) - p * 90| / 90))).toNat then
          some ((ratTrunc ((W : ℚ) * (|(90 : ℚ) - p * 90| / 90))).toNat, 0)
        else none)
      else none) := rfl
  have hdef1 : (pageTurn W p).1 =
      (if 1/100 < (90 - p * 90) / 90 then
        (if 0 < (⌊(W : ℚ) * ((90 - p * 90) / 90)⌋).toNat then
          some ((⌊(W : ℚ) * ((90 - p * 90) / 90)⌋).toNat, 0) else none)
      else none) := by
    rw [hdef1a, habs1, hta]
  have hdef2a : (pageTurn W p).2 =
      (if 1/100 < |p * (90 : ℚ)| / 90 then
        (if 0 < (ratTrunc ((W : ℚ) * (|p * (90 : ℚ)| / 90))).toNat then
          some ((ratTrunc ((W : ℚ) * (|p * (90 : ℚ)| / 90))).toNat,
            W - (ratTrunc ((W : ℚ) * (|p * (90 : ℚ)| / 90))).toNat)
        else none)
      else none) := rfl
  have hdef2 : (pageTurn W p).2 =
      (if 1/100 < p * 90 / 90 then
        (if 0 < (⌊(W : ℚ) * (p * 90 / 90)⌋).toNat then
          some ((⌊(W : ℚ) * (p * 90 / 90)⌋).toNat,
            W - (⌊(W : ℚ) * (p * 90 / 90)⌋).toNat) else none)
      else none) := by
    rw [hdef2a, habs2, htb]
  have hold : ∀ w x, (pageTurn W p).1 = some (w, x) →
      (w : Int) = ⌊(W : ℚ) * ((90 - p * 90) / 90)⌋ ∧ x = 0 := by
    intro w x hw
    rw [hdef1] at hw
    split_ifs at hw with hc1 hc2
    · simp only [Option.some.injEq, Prod.mk.injEq] at hw
      refine ⟨?_, hw.2.symm⟩
      rw [← hw.1, Int.toNat_of_nonneg hfa0]
  have hnew : ∀ w x, (pageTurn W p).2 = some (w, x) →
      (w : Int) = ⌊(W : ℚ) * (p * 90 / 90)⌋ ∧ x = W - w ∧ w ≤ W := by
    intro w x hw
    rw [hdef2] at hw
    split_ifs at hw with hc1 hc2
    · simp only [Option.some.injEq, Prod.mk.injEq] at hw
      have hwe : (w : Int) = ⌊(W : ℚ) * (p * 90 / 90)⌋ := by
        rw [← hw.1, Int.toNat_of_nonneg hfb0]
      have hble : (W : ℚ) * (p * 90 / 90) ≤ (W : ℚ) := by
        have he : (W : ℚ) * (p * 90 / 90) = (W : ℚ) * p := by ring
        rw [he]
        calc (W : ℚ) * p ≤ (W : ℚ) * 1 :=
              mul_le_mul_of_nonneg_left (le_of_lt hp1) (Nat.cast_nonneg W)
          _ = (W : ℚ) := by ring
      have hfb : ⌊(W : ℚ) * (p * 90 / 90)⌋ ≤ (W : Int) := by
        have hff := Int.floor_le_floor hble
        rwa [Int.floor_natCast] at hff
      have hwle : w ≤ W := by omega
      exact ⟨hwe, by omega, hwle⟩
  have hboth : ∀ ow ox nw nx, (pageTurn W p).1 = some (ow, ox) →
      (pageTurn W p).2 = some (nw, nx) →
      ox + ow ≤ nx ∧ nx ≤ ox + ow + 1 ∧
      ((W : ℚ) * p = (⌊(W : ℚ) * p⌋ : ℚ) → ox + ow = nx) := by
    intro ow ox nw nx h1 h2
    obtain ⟨how, hox⟩ := hold ow ox h1
    obtain ⟨hnw, hnx, hnwW⟩ := hnew nw nx h2
    have hab : (W : ℚ) * ((90 - p * 90) / 90) + (W : ℚ) * (p * 90 / 90)
        = (W : ℚ) := by ring
    have hle1 : ⌊(W : ℚ) * ((90 - p * 90) / 90)⌋ +
        ⌊(W : ℚ) * (p * 90 / 90)⌋ ≤ (W : Int) := by
      have hx1 := Int.floor_le ((W : ℚ) * ((90 - p * 90) / 90))
      have hx2 := Int.floor_le ((W : ℚ) * (p * 90 / 90))
      have hx : ((⌊(W : ℚ) * ((90 - p * 90) / 90)⌋ +
          ⌊(W : ℚ) * (p * 90 / 90)⌋ : Int) : ℚ) ≤ ((W : Int) : ℚ) := by
        push_cast
        linarith
      exact_mod_cast hx
    have hle2 : (W : Int) ≤ ⌊(W : ℚ) * ((90 - p * 90) / 90)⌋ +
        ⌊(W : ℚ) * (p * 90 / 90)⌋ + 1 := by
      have hx1 := Int.lt_floor_add_one ((W : ℚ) * ((90 - p * 90) / 90))
      have hx2 := Int.lt_floor_add_one ((W : ℚ) * (p * 90 / 90))
      have hx : ((W : Int) : ℚ) < ((⌊(W : ℚ) * ((90 - p * 90) / 90)⌋ +
          ⌊(W : ℚ) * (p * 90 / 90)⌋ + 2 : Int) : ℚ) := by
        push_cast
        linarith
      have hxi : (W : Int) < ⌊(W : ℚ) * ((90 - p * 90) / 90)⌋ +
          ⌊(W : ℚ) * (p * 90 / 90)⌋ + 2 := by exact_mod_cast hx
      omega
    refine ⟨by omega, by omega, ?_⟩
    intro hint
    have hbp : (W : ℚ) * (p * 90 / 90) = (W : ℚ) * p := by ring
    have hfbe : ⌊(W : ℚ) * (p * 90 / 90)⌋ = ⌊(W : ℚ) * p⌋ := by rw [hbp]
    have haW : (W : ℚ) * ((90 - p * 90) / 90) =
        (((W : Int) - ⌊(W : ℚ) * p⌋ : Int) : ℚ) := by
      push_cast
      rw [← hint]
      ring
    have hfae : ⌊(W : ℚ) * ((90 - p * 90) / 90)⌋ =
        (W : Int) - ⌊(W : ℚ) * p⌋ := by
      rw [haW, Int.floor_intCast]
    omega
  refine ⟨hold, hnew, hboth, ?_, ?_⟩
  · intro hsc
    rw [hdef1, if_neg (not_lt.mpr hsc)]
  · intro hsc
    rw [hdef2, if_neg (not_lt.mpr hsc)]

/-- Witness for the amended C6 at frame width 500 and progress 1/2: the
outgoing image is drawn with truncated width 250 flush-left. -/
theorem c6_page_turn_amended_witness :
    ((250 : Nat) : Int) = ⌊((500 : Nat) : ℚ) * ((90 - (1/2 : ℚ) * 90) / 90)⌋ ∧
    (0 : Nat) = (0 : Nat) := by
  have h1 : (pageTurn 500 (1/2)).1 = some (250, 0) := by
    norm_num [pageTurn, ratTrunc, abs_of_nonneg]
    omega
  exact (c6_page_turn_amended 500 (1/2) (by norm_num) (by norm_num)).1 250 0 h1

/-! ## Claims about alert event handling -/

/-- Claim C3 counterexample: pressing the quit key (K_q) inside the alert
window ends the presenter session but sets should_continue to True
(resume monitoring), not False as the claim states (src/alert_system.py
lines 287-290). -/
theorem c3_counterexample :
    handle_event ⟨80, 10, 160, 40⟩ ⟨260, 10, 160, 40⟩ (true, true)
        (.keydown K_q) = (false, true) ∧
    ¬ (handle_event ⟨80, 10, 160, 40⟩ ⟨260, 10, 160, 40⟩ (true, true)
        (.keydown K_q)).2 = false := by
  constructor
  · rfl
  · intro h
    simp [handle_event, K_q, K_ESCAPE] at h

/-- Claim C3 (amended): within the alert window, a window-close event
ends the presenter session and returns False (do not continue
monitoring); a press of the quit key (q or Escape) ends the session and
returns True (resume monitoring); a continue-button click ends the
session and returns True; a quit-button click (outside the continue
button, which is checked first) ends the session and returns False; any
other event type, key, or click position is ignored. -/
theorem c3_event_handling_amended (btnC btnQ : PyRect) (st : Bool × Bool)
    (k : Nat) (x y : Int) :
    handle_event btnC btnQ st .quitEvent = (false, false) ∧
    (k = K_q ∨ k = K_ESCAPE →
      handle_event btnC btnQ st (.keydown k) = (false, true)) ∧
    (¬ (k = K_q ∨ k = K_ESCAPE) →
      handle_event btnC btnQ st (.keydown k) = st) ∧
    (btnC.collidepoint x y = true →
      handle_event btnC btnQ st (.mousedown x y) = (false, true)) ∧
    (btnC.collidepoint x y = false → btnQ.collidepoint x y = true →
      handle_event btnC btnQ st (.mousedown x y) = (false, false)) ∧
    (btnC.collidepoint x y = false → btnQ.collidepoint x y = false →
      handle_event btnC btnQ st (.mousedown x y) = st) ∧
    handle_event btnC btnQ st .otherEvent = st := by
  refine ⟨rfl, ?_, ?_, ?_, ?_, ?_, rfl⟩
  · intro hk; simp [handle_event, hk]
  · intro hk; simp [handle_event, hk]
  · intro hc; simp [handle_event, hc]
  · intro hc hq; simp [handle_event, hc, hq]
  · intro hc hq; simp [handle_event, hc, hq]

/-- Witness for the amended C3 with the default button geometry of a
500-pixel-wide window: Escape resumes monitoring, a click at (100, 20)
hits the continue button and resumes, a click at (300, 20) hits the quit
button and ends the session with False. -/
theorem c3_event_handling_amended_witness :
    handle_event ⟨80, 10, 160, 40⟩ ⟨260, 10, 160, 40⟩ (true, true)
        (.keydown 27) = (false, true) ∧
    handle_event ⟨80, 10, 160, 40⟩ ⟨260, 10, 160, 40⟩ (true, true)
        (.mousedown 100 20) = (false, true) ∧
    handle_event ⟨80, 10, 160, 40⟩ ⟨260, 10, 160, 40⟩ (true, true)
        (.mousedown 300 20) = (false, false) := by
  have hw := c3_event_handling_amended ⟨80, 10, 160, 40⟩ ⟨260, 10, 160, 40⟩
    (true, true) 27 300 20
  have hw2 := c3_event_handling_amended ⟨80, 10, 160, 40⟩ ⟨260, 10, 160, 40⟩
    (true, true) 27 100 20
  refine ⟨hw.2.1 (by right; rfl), hw2.2.2.2.1 (by decide), ?_⟩
  exact hw.2.2.2.2.1 (by decide) (by decide)

/-! ## Claims about the fail-open behaviour of trigger_alert -/

/-- Claim C4: trigger_alert fails open. With an empty loaded image set it
returns True (continue) without opening a display; a pygame
initialization failure likewise returns True without a display; a
display-creation failure returns True; and a font-rendering failure
returns True (the display exists by then); none of these raise into the
host loop. -/
theorem c4_fail_open (env : AlertEnv) :
    (env.images = [] → trigger_alert env = ⟨true, false⟩) ∧
    (env.pygameInitOk = false → trigger_alert env = ⟨true, false⟩) ∧
    (env.displayOk = false → (trigger_alert env).result = true) ∧
    (env.fontOk = false → (trigger_alert env).result = true) := by
  refine ⟨?_, ?_, ?_, ?_⟩
  · intro h
    simp only [trigger_alert, h]
    split_ifs <;> rfl
  · intro h
    simp [trigger_alert, h]
  · intro h
    simp only [trigger_alert, h]
    split_ifs <;> rfl
  · intro h
    simp only [trigger_alert, h]
    split_ifs <;> rfl

/-- Witness for C4: an environment whose image folder produced no images
returns continue without a display, and one whose font rendering fails
still returns continue. -/
theorem c4_fail_open_witness :
    trigger_alert ⟨true, [], true, true, false⟩ =
      (⟨true, false⟩ : AlertOutcome) ∧
    (trigger_alert ⟨true, [0], true, false, false⟩).result = true :=
  ⟨(c4_fail_open ⟨true, [], true, true, false⟩).1 rfl,
   (c4_fail_open ⟨true, [0], true, false, false⟩).2.2.2 rfl⟩

/-! ## Image loading (src/alert_system.py, load_horse_images, lines 24-81) -/

/-- Python string comparison: lexicographic on code points. -/
def charListLe : List Char → List Char → Bool
  | [], _ => true
  | _ :: _, [] => false
  | a :: as, b :: bs =>
    if a.toNat < b.toNat then true
    else if b.toNat < a.toNat then false
    else charListLe as bs

/-- Python str.lower restricted to the ASCII range (filenames compared
against the ASCII extensions ".png" and ".gif"). -/
def strLower (s : String) : String :=
  ⟨s.data.map Char.toLower⟩

/-- Python str.endswith: code-point suffix test. -/
def strEndsWith (s suf : String) : Bool :=
  suf.data.isSuffixOf s.data

/-- A directory entry as seen by load_horse_images: its filename, whether
pygame.image.load succeeds on it, and what imageio.mimread returns for it
(the number of decoded GIF frames, or none when it raises). -/
structure FsEntry where
  name : String
  stillLoadOk : Bool
  gifFrames : Option Nat
  deriving DecidableEq, Repr

/-- One carousel entry produced by the loader: source filename and the
index of the decoded frame within that file (0 for a PNG still). -/
structure ImgEntry where
  src : String
  frame : Nat
  deriving DecidableEq, Repr

/-- The images contributed by a single directory entry (loop body, lines
46-78): files whose lowercased name ends in neither ".png" nor ".gif"
are skipped; a ".png" contributes one surface when it loads; a ".gif"
contributes one surface per decoded frame when imageio is available
(nothing when mimread raises) and falls back to its first frame when
imageio is unavailable. -/
def entryImages (imageioAvailable : Bool) (e : FsEntry) : List ImgEntry :=
  if ¬ (strEndsWith (strLower e.name) ".png" = true ∨
      strEndsWith (strLower e.name) ".gif" = true) then []
  else if strEndsWith (strLower e.name) ".png" = true then
    (if e.stillLoadOk = true then [⟨e.name, 0⟩] else [])
  else
    if imageioAvailable = false then
      (if e.stillLoadOk = true then [⟨e.name, 0⟩] else [])
    else
      match e.gifFrames with
      | some k => (List.range k).map (fun i => (⟨e.name, i⟩ : ImgEntry))
      | none => []

/-- Ordering of directory entries by filename, as produced by
sorted(os.listdir(folder)) at line 41. -/
def byName (a b : FsEntry) : Prop :=
  charListLe a.name.data b.name.data = true

instance : DecidableRel byName :=
  fun a b => inferInstanceAs (Decidable (charListLe a.name.data b.name.data = true))

lemma charListLe_total (a b : List Char) :
    charListLe a b = true ∨ charListLe b a = true := by
  induction a generalizing b with
  | nil => left; rfl
  | cons x xs ih =>
    cases b with
    | nil => right; rfl
    | cons y ys =>
      by_cases h1 : x.toNat < y.toNat
      · left; simp [charListLe, h1]
      · by_cases h2 : y.toNat < x.toNat
        · right; simp [charListLe, h2]
        · rcases ih ys with h | h
          · left; simp [charListLe, h1, h2, h]
          · right; simp [charListLe, h1, h2, h]

lemma charListLe_trans (a b c : List Char) (h1 : charListLe a b = true)
    (h2 : charListLe b c = true) : charListLe a c = true := by
  induction a generalizing b c with
  | nil => rfl
  | cons x xs ih =>
    cases b with
    | nil => simp [charListLe] at h1
    | cons y ys =>
      cases c with
      | nil => simp [charListLe] at h2
      | cons z zs =>
        simp only [charListLe] at h1 h2 ⊢
        by_cases hxy : x.toNat < y.toNat
        · by_cases hyz : y.toNat < z.toNat
          · simp [show x.toNat < z.toNat from by omega]
          · simp only [hyz, if_false] at h2
            by_cases hzy : z.toNat < y.toNat
            · simp [hzy] at h2
            · simp [show x.toNat < z.toNat from by omega]
        · simp only [hxy, if_false] at h1
          by_cases hyx : y.toNat < x.toNat
          · simp [hyx] at h1
          · simp only [hyx, if_false] at h1
            by_cases hyz : y.toNat < z.toNat
            · simp [show x.toNat < z.toNat from by omega]
            · simp only [hyz, if_false] at h2
              by_cases hzy : z.toNat < y.toNat
              · simp [hzy] at h2
              · simp only [hzy, if_false] at h2
                have hnxz : ¬ x.toNat < z.toNat := by omega
                have hnzx : ¬ z.toNat < x.toNat := by omega
                simp only [hnxz, hnzx, if_false]
                exact ih ys zs h1 h2

instance : IsTotal FsEntry byName :=
  ⟨fun a b => charListLe_total a.name.data b.name.data⟩

instance : IsTrans FsEntry byName :=
  ⟨fun a b c => charListLe_trans a.name.data b.name.data c.name.data⟩

/-- sorted(os.listdir(folder)): the directory listing sorted by name
(insertion sort is stable, like Python's sort). -/
def sortByName (files : List FsEntry) : List FsEntry :=
  List.insertionSort byName files

/-- The loader's for-loop over the sorted listing, concatenating the
contribution of each entry in order. -/
def processFiles (imageioAvailable : Bool) : List FsEntry → List ImgEntry
  | [] => []
  | e :: es => entryImages imageioAvailable e ++ processFiles imageioAvailable es

/-- load_horse_images: sort the listing by name, then accumulate each
entry's surfaces in order (src/alert_system.py lines 41-81). -/
def load_horse_images (imageioAvailable : Bool)
    (files : List FsEntry) : List ImgEntry :=
  processFiles imageioAvailable (sortByName files)

/-! ## Claim about image loading -/

/-- Claim C7: load_horse_images processes directory entries in
sorted-name order (the processed listing is a sorted permutation of the
folder contents, consumed left to right), matches exactly the ".png" and
".gif" extensions case-insensitively and ignores every other file,
yields one carousel entry per readable PNG and one entry per decoded GIF
frame; consequently a folder with one 4-frame GIF (whose name sorts
first) and one PNG yields exactly the 5 entries gif frame 0..3 followed
by the png. -/
theorem c7_load_horse_images (im : Bool) (files : List FsEntry)
    (e : FsEntry) (es : List FsEntry) (k : Nat) :
    List.Sorted byName (sortByName files) ∧
    List.Perm (sortByName files) files ∧
    processFiles im (e :: es) = entryImages im e ++ processFiles im es ∧
    (¬ (strEndsWith (strLower e.name) ".png" = true ∨
        strEndsWith (strLower e.name) ".gif" = true) →
      entryImages im e = []) ∧
    (strEndsWith (strLower e.name) ".png" = true → e.stillLoadOk = true →
      entryImages im e = [⟨e.name, 0⟩]) ∧
    (strEndsWith (strLower e.name) ".png" = false →
      strEndsWith (strLower e.name) ".gif" = true → e.gifFrames = some k →
      entryImages true e = (List.range k).map (fun i => ⟨e.name, i⟩)) ∧
    load_horse_images true [⟨"b.png", true, none⟩, ⟨"a.gif", true, some 4⟩] =
      [⟨"a.gif", 0⟩, ⟨"a.gif", 1⟩, ⟨"a.gif", 2⟩, ⟨"a.gif", 3⟩,
        ⟨"b.png", 0⟩] := by
  refine ⟨List.sorted_insertionSort byName files,
    List.perm_insertionSort byName files, rfl, ?_, ?_, ?_, by decide⟩
  · intro h
    simp [entryImages, h]
  · intro hp hl
    simp [entryImages, hp, hl]
  · intro hp hg hf
    simp [entryImages, hp, hg, hf]

/-- Witness for C7: a .txt file is ignored, an uppercase .PNG is loaded
case-insensitively, and the unsorted listing png-then-gif yields the five
entries of the claim's scenario in sorted order. -/
theorem c7_load_horse_images_witness :
    entryImages true ⟨"notes.txt", true, none⟩ = [] ∧
    entryImages true ⟨"E.PNG", true, none⟩ = [(⟨"E.PNG", 0⟩ : ImgEntry)] ∧
    load_horse_images true [⟨"b.png", true, none⟩, ⟨"a.gif", true, some 4⟩] =
      [⟨"a.gif", 0⟩, ⟨"a.gif", 1⟩, ⟨"a.gif", 2⟩, ⟨"a.gif", 3⟩,
        ⟨"b.png", 0⟩] := by
  have h1 := c7_load_horse_images true [] ⟨"notes.txt", true, none⟩ [] 0
  have h2 := c7_load_horse_images true
    [⟨"b.png", true, none⟩, ⟨"a.gif", true, some 4⟩] ⟨"E.PNG", true, none⟩ [] 0
  exact ⟨h1.2.2.2.1 (by decide), h2.2.2.2.2.1 (by decide) (by decide),
    h2.2.2.2.2.2.2⟩
